import Mathlib

/-!
# Verification of the ICU data-regeneration utility (tools/icuutil.py)

This file is a shallow embedding, in Lean 4, of the control flow of
`tools/icuutil.py`: the convergence loop `GenerateIcuDataFiles`, the build
and copy operations `PrepareIcuBuild`, `MakeAndCopyIcuDataFiles`,
`MakeAndCopyOverlayTzIcuData`, the derived-file regeneration `_MakeLangInfo`,
and the helper `datFile`.

Modelling conventions:

* Filesystem paths are modelled by the inductive type `Path`: an abstract
  root plus a chain of `join` components, mirroring the `os.path.join` and
  percent-format path constructions of the source.
* External subprocess invocations are opaque: each invocation's exit status
  is an input of the model.  `subprocess.check_call` raises
  `CalledProcessError` on a non-zero status, which no caller in this script
  catches, so the model ends the operation with outcome
  `aborted (calledProcessError t)` at that point.  `subprocess.Popen` +
  `wait` (used only for `pkgdata`) does not raise; the source merely prints
  when its return code is non-zero.
* `glob.glob` results are inputs of the model (`datGlob`, `jarGlob`).
* Every operation produces a `trace` of visible effects (`Action` values,
  in program order), an `Outcome`, and the final process-wide working
  directory `cwd`.  Print statements are elided from the trace except for
  the halt diagnostics that the claims mention, as is the conditional
  `shutil.rmtree` of the destination test-data directory.
* Python name resolution matters in one place: the diagnostic in `datFile`
  mentions the name `datfiles`, and evaluating it requires that name to be
  bound.  The model records the local names actually bound at that point
  and looks the name up, yielding `nameError` when it is absent.
* `filecmp.cmp` is called by `_MakeLangInfo` with its default
  `shallow=True`; the model `filecmp_cmp` reproduces the documented stdlib
  semantics: if the stat signatures (size, mtime) of two regular files
  agree the files are reported equal without reading them, otherwise the
  contents are compared (files of different sizes are unequal).
* File contents are lists of bytes (`List Nat` with an `mtime` stamp in
  `PFile`); sizes are derived as content length.
-/

namespace IcuUtil

/-- An abstract filesystem path: a root name followed by joined components.
`Path.join p s` models `'%s/...' % p` and `os.path.join(p, s)`. -/
inductive Path where
  | root : String → Path
  | join : Path → String → Path
deriving DecidableEq, Repr

instance : Inhabited Path := ⟨Path.root ""⟩

/-- Model of `os.path.basename`: the last component of a path (for a bare root,
the root name itself, matching a component-free relative path). -/
def Path.basename : Path → String
  | Path.root s => s
  | Path.join _ s => s

/-- The external tools this script invokes as subprocesses. -/
inductive Tool where
  | make
  | ant
  | java
  | runConfigureICU
  | pkgdata
deriving DecidableEq, Repr

/-- Why an operation stopped before reaching its normal end:
an uncaught `subprocess.CalledProcessError` from `check_call`,
an uncaught Python `NameError`, or an explicit `sys.exit`. -/
inductive Abort where
  | calledProcessError : Tool → Abort
  | nameError : String → Abort
  | sysExit : Nat → Abort
deriving DecidableEq, Repr

/-- How an operation finished. -/
inductive Outcome where
  | normal
  | aborted : Abort → Outcome
deriving DecidableEq, Repr

/-- The parsed content of the ICU data-filter JSON payloads defined at the
top of the source file: an optional `misc` excludelist and the
`brkitr_adaboost` includelist. -/
structure IcuDataFilters where
  misc_excludelist : Option (List String)
  brkitr_adaboost_includelist : List String
deriving DecidableEq, Repr

/-- The `ICU_DATA_FILTERS` payload: excludes the four time-zone resources
from `misc` and restricts `brkitr_adaboost` to `jaml`. -/
def ICU_DATA_FILTERS : IcuDataFilters :=
  { misc_excludelist := some ["metaZones", "timezoneTypes", "windowsZones", "zoneinfo64"],
    brkitr_adaboost_includelist := ["jaml"] }

/-- The `ICU_MLDATA_FILTERS` payload: no `misc` excludelist, the same
`brkitr_adaboost` includelist. -/
def ICU_MLDATA_FILTERS : IcuDataFilters :=
  { misc_excludelist := none,
    brkitr_adaboost_includelist := ["jaml"] }

/-- One observable effect of an operation, in program order. -/
inductive Action where
  | chdir : Path → Action
  | invoke : Tool → Nat → Action
  | invokePkgdata : String → Nat → Action
  | copyFile : Path → Path → Action
  | copyTree : Path → Path → Action
  | skipJarCopy : Path → Action
  | mkdir : Path → Action
  | writeFile : Path → Action
  | writeFilterFile : Path → IcuDataFilters → Action
  | symlink : Path → Path → Action
  | unlink : Path → Action
  | printDiag : Nat → Action
deriving DecidableEq, Repr

/-- The result of running one operation of the script: the effect trace,
how the operation finished, and the process-wide working directory at
that moment. -/
structure OpResult where
  trace : List Action
  outcome : Outcome
  cwd : Path
deriving Repr

/-! ## The convergence loop `GenerateIcuDataFiles`

The loop is modelled one level above the per-operation traces: each call of
`_MakeIcuDataFilesOnce` switches to a fresh temporary directory and returns
a fresh build directory, so build directories are identified by the index
of the full build that produced them (0, 1, 2, ...).  The result of the
k-th `_MakeLangInfo` call is an oracle `changed k`.  Since the Python loop
is unbounded, the model takes explicit fuel and reports whether the loop
completed (`true`: the final variant build was reached) within that fuel. -/

/-- One high-level event of `GenerateIcuDataFiles`. -/
inductive LoopEvent where
  | fullBuild : Nat → LoopEvent
  | langInfo : Bool → LoopEvent
  | finalVariant : Nat → LoopEvent
deriving DecidableEq, Repr

/-- The `while _MakeLangInfo(): last_icu_build_dir = _MakeIcuDataFilesOnce()`
loop.  `k` is the index of the next `_MakeLangInfo` call, which is also the
index of the most recent full build; `acc` is the event trace so far.
Returns the trace together with `true` iff the loop exited normally and the
final variant build was emitted. -/
def genLoop (changed : Nat → Bool) : Nat → Nat → List LoopEvent → List LoopEvent × Bool
  | 0, _, acc => (acc, false)
  | fuel + 1, k, acc =>
      if changed k then
        genLoop changed fuel (k + 1)
          (acc ++ [LoopEvent.langInfo true, LoopEvent.fullBuild (k + 1)])
      else
        (acc ++ [LoopEvent.langInfo false, LoopEvent.finalVariant k], true)

/-- Model of `GenerateIcuDataFiles`: one unconditional full build, then the
convergence loop, then (on normal exit) the final variant build with the
most recent build directory. -/
def GenerateIcuDataFiles (changed : Nat → Bool) (fuel : Nat) : List LoopEvent × Bool :=
  genLoop changed fuel 0 [LoopEvent.fullBuild 0]

/-- Number of full builds (`_MakeIcuDataFilesOnce` calls) in a loop trace. -/
def countBuilds (t : List LoopEvent) : Nat :=
  t.countP fun e => match e with
    | LoopEvent.fullBuild _ => true
    | _ => false

/-- Number of final variant builds in a loop trace. -/
def countFinal (t : List LoopEvent) : Nat :=
  t.countP fun e => match e with
    | LoopEvent.finalVariant _ => true
    | _ => false

/-- The directories of the full builds in a loop trace, in order. -/
def buildDirs (t : List LoopEvent) : List Nat :=
  t.filterMap fun e => match e with
    | LoopEvent.fullBuild d => some d
    | _ => none

/-- The build directory of the most recent full build in a trace. -/
def lastBuildDir (t : List LoopEvent) : Option Nat :=
  (buildDirs t).getLast?

/-! ## `datFile` -/

/-- The local names bound inside `datFile` when the count check fails:
its parameter and the two locals assigned before the check.  Neither these
nor the module's global names include `datfiles`. -/
def datFileLocals : List String := ["icu_build_dir", "dat_file_pattern", "dat_files"]

/-- Model of `datFile`: glob for the ICU `.dat` file in the build directory.
`datGlob` is the glob result.  When the count differs from 1, the source
formats a diagnostic mentioning `len(datfiles)`; evaluating that expression
looks up the name `datfiles`, which is unbound, so the lookup decides
between the `sys.exit(1)` path and an uncaught `NameError`. -/
def datFile (datGlob : List Path) : Except Abort Path :=
  let dat_files := datGlob
  if dat_files.length ≠ 1 then
    if datFileLocals.contains "datfiles" then
      Except.error (Abort.sysExit 1)
    else
      Except.error (Abort.nameError "datfiles")
  else
    Except.ok dat_files.headI

/-! ## `PrepareIcuBuild` -/

/-- Model of `PrepareIcuBuild`: chdir into the build directory, optionally write the
data-filter JSON file there, run `runConfigureICU` via `check_call`, and
chdir back on success.  A non-zero configure status raises out of the
function with the working directory still the build directory. -/
def PrepareIcuBuild (cwd0 icu_build_dir : Path) (data_filters : Option IcuDataFilters)
    (configureSt : Nat) : OpResult :=
  let t0 := [Action.chdir icu_build_dir]
    ++ (match data_filters with
        | some f => [Action.writeFilterFile icu_build_dir f]
        | none => [])
    ++ [Action.invoke Tool.runConfigureICU configureSt]
  if configureSt ≠ 0 then
    ⟨t0, Outcome.aborted (Abort.calledProcessError Tool.runConfigureICU), icu_build_dir⟩
  else
    ⟨t0 ++ [Action.chdir cwd0], Outcome.normal, cwd0⟩

/-! ## `MakeAndCopyIcuDataFiles` -/

/-- Model of `MakeAndCopyIcuDataFiles`: chdir into the build directory, `make`, find
the `.dat` file, copy it to `icu4c/stubdata`; when
`copy_icu4c_dat_file_only` return right there (without restoring the
working directory); otherwise `make icu4j-data`, `make tests`, check that
exactly three `.jar` files were produced (printing a diagnostic and
`sys.exit(1)` otherwise), copy each `.jar` whose zip contents differ from
its destination (skipping identical ones), copy the test data tree, and
chdir back.  Each `make` runs via `check_call`, so a non-zero status
aborts at that point. -/
def MakeAndCopyIcuDataFiles (cwd0 icu_build_dir icu4c_dir icu4j_dir : Path)
    (copy_icu4c_dat_file_only : Bool) (makeSt icu4jDataSt testsSt : Nat)
    (datGlob jarGlob : List Path) (zipSame : Path → Bool) : OpResult :=
  let t0 := [Action.chdir icu_build_dir, Action.invoke Tool.make makeSt]
  if makeSt ≠ 0 then
    ⟨t0, Outcome.aborted (Abort.calledProcessError Tool.make), icu_build_dir⟩
  else
    match datFile datGlob with
    | Except.error a => ⟨t0, Outcome.aborted a, icu_build_dir⟩
    | Except.ok dat_file =>
      let icu_dat_data_dir := icu4c_dir.join "stubdata"
      let t1 := t0 ++ [Action.copyFile dat_file icu_dat_data_dir]
      if copy_icu4c_dat_file_only then
        ⟨t1, Outcome.normal, icu_build_dir⟩
      else
        let t2 := t1 ++ [Action.invoke Tool.make icu4jDataSt]
        if icu4jDataSt ≠ 0 then
          ⟨t2, Outcome.aborted (Abort.calledProcessError Tool.make), icu_build_dir⟩
        else
          let t3 := t2 ++ [Action.invoke Tool.make testsSt]
          if testsSt ≠ 0 then
            ⟨t3, Outcome.aborted (Abort.calledProcessError Tool.make), icu_build_dir⟩
          else
            if jarGlob.length ≠ 3 then
              ⟨t3 ++ [Action.printDiag jarGlob.length],
               Outcome.aborted (Abort.sysExit 1), icu_build_dir⟩
            else
              let icu_jar_data_dir := ((icu4j_dir.join "main").join "shared").join "data"
              let jarActs := jarGlob.flatMap fun jarfile =>
                if zipSame jarfile then [Action.skipJarCopy jarfile]
                else [Action.copyFile jarfile icu_jar_data_dir]
              let testdata_out_dir := ((icu4c_dir.join "test").join "testdata").join "out"
              let t4 := t3 ++ jarActs
                ++ [Action.copyTree (((Path.root "test").join "testdata").join "out") testdata_out_dir,
                    Action.chdir cwd0]
              ⟨t4, Outcome.normal, cwd0⟩

/-! ## `MakeAndCopyOverlayTzIcuData` -/

/-- The suffix check and package-name computation of
`MakeAndCopyOverlayTzIcuData` (source lines 251-255): when the basename of
the `.dat` file does not end with `.dat`, print and `sys.exit(1)`;
otherwise the package name is the basename with its last four characters
sliced off (`icu_package_dat[:-4]`). -/
def overlayPackageName (icu_package_dat : List Char) : Except Nat (List Char) :=
  if ".dat".toList.isSuffixOf icu_package_dat then
    Except.ok (icu_package_dat.take (icu_package_dat.length - 4))
  else
    Except.error 1

/-- The ICU resources copied into the overlay staging directory. -/
def tz_res_names : List String :=
  ["metaZones.res", "timezoneTypes.res", "windowsZones.res", "zoneinfo64.res"]

/-- Model of `MakeAndCopyOverlayTzIcuData`: chdir into the build directory, `make`
(via `check_call`), find the `.dat` file, derive the package name from its
basename, stage the four time-zone `.res` files, write the `.lst` file,
chdir into the staging directory and run `pkgdata` via `Popen`+`wait`.
A non-zero `pkgdata` status only prints a diagnostic; the overlay `.dat`
is copied to `dest_file` regardless, and the working directory is
restored. -/
def MakeAndCopyOverlayTzIcuData (cwd0 icu_build_dir dest_file : Path)
    (makeSt pkgSt : Nat) (datGlob : List Path) : OpResult :=
  let t0 := [Action.chdir icu_build_dir, Action.invoke Tool.make makeSt]
  if makeSt ≠ 0 then
    ⟨t0, Outcome.aborted (Abort.calledProcessError Tool.make), icu_build_dir⟩
  else
    match datFile datGlob with
    | Except.error a => ⟨t0, Outcome.aborted a, icu_build_dir⟩
    | Except.ok dat_file =>
      let icu_package_dat := Path.basename dat_file
      match overlayPackageName icu_package_dat.data with
      | Except.error c => ⟨t0, Outcome.aborted (Abort.sysExit c), icu_build_dir⟩
      | Except.ok pkgChars =>
        let icu_package : String := ⟨pkgChars⟩
        let res_staging_dir := icu_build_dir.join "overlay_res"
        let res_src_dir :=
          ((((icu_build_dir.join "data").join "out").join "build").join icu_package)
        let resCopies := tz_res_names.map fun r =>
          Action.copyFile (res_src_dir.join r) res_staging_dir
        let t1 := t0 ++ [Action.mkdir res_staging_dir] ++ resCopies
          ++ [Action.writeFile (res_staging_dir.join "tzdata.lst"),
              Action.chdir res_staging_dir,
              Action.invokePkgdata icu_package pkgSt]
          ++ (if pkgSt ≠ 0 then [Action.printDiag pkgSt] else [])
          ++ [Action.copyFile (res_staging_dir.join icu_package_dat) dest_file,
              Action.chdir cwd0]
        ⟨t1, Outcome.normal, cwd0⟩

/-! ## `_MakeLangInfo` -/

/-- A regular file: its byte content and modification time.  The stat size
is the content length. -/
structure PFile where
  content : List Nat
  mtime : Nat
deriving DecidableEq, Repr

/-- Model of `filecmp.cmp(f1, f2)` with the default `shallow=True`, for two regular
files: files whose stat signatures (size, mtime) agree are reported equal
without reading them; otherwise files of different sizes are unequal and
files of equal sizes are compared byte by byte. -/
def filecmp_cmp (f1 f2 : PFile) : Bool :=
  if f1.content.length = f2.content.length ∧ f1.mtime = f2.mtime then
    true
  else if f1.content.length ≠ f2.content.length then
    false
  else
    decide (f1.content = f2.content)

/-- The result of `_MakeLangInfo`: effect trace, outcome, final working
directory, the returned flag (`none` when the operation aborted), and the
state of the committed `langInfo.txt` afterwards. -/
structure LangInfoResult where
  trace : List Action
  outcome : Outcome
  cwd : Path
  changed : Option Bool
  dstAfter : PFile
deriving Repr

/-- Model of `_MakeLangInfo`: regenerate `langInfo.txt`.  Runs `ant icu4jJar` in the
icu4j directory, then `ant jar` and the `LocaleDistanceBuilder` java tool
in `icu4j/tools/misc` (all via `check_call`), compares the freshly
generated `/tmp/langInfo.txt` (`langInfo_out`) with the committed copy
(`langInfo_dst`) using `filecmp.cmp`, and on a difference copies the fresh
file over the committed one (giving it a new mtime `now`) and returns
`true`; otherwise returns `false`.  No exit path restores the working
directory.  The initial removal of a stale `/tmp/langInfo.txt` and the
print statements are elided from the trace.  The `cwd0` parameter records
the working directory from before the call; the source never uses it. -/
def MakeLangInfo (cwd0 icu4c_dir icu4j_dir : Path) (antIcu4jSt antMiscSt javaSt : Nat)
    (langInfo_dst langInfo_out : PFile) (now : Nat) : LangInfoResult :=
  let _original_working_dir := cwd0
  let toolsMisc := (icu4j_dir.join "tools").join "misc"
  let langInfo_dst_path := icu4c_dir.join "data/misc/langInfo.txt"
  let t0 := [Action.chdir icu4j_dir, Action.invoke Tool.ant antIcu4jSt]
  if antIcu4jSt ≠ 0 then
    ⟨t0, Outcome.aborted (Abort.calledProcessError Tool.ant), icu4j_dir, none, langInfo_dst⟩
  else
    let t1 := t0 ++ [Action.chdir toolsMisc, Action.invoke Tool.ant antMiscSt]
    if antMiscSt ≠ 0 then
      ⟨t1, Outcome.aborted (Abort.calledProcessError Tool.ant), toolsMisc, none, langInfo_dst⟩
    else
      let t2 := t1 ++ [Action.invoke Tool.java javaSt]
      if javaSt ≠ 0 then
        ⟨t2, Outcome.aborted (Abort.calledProcessError Tool.java), toolsMisc, none, langInfo_dst⟩
      else
        if filecmp_cmp langInfo_dst langInfo_out then
          ⟨t2, Outcome.normal, toolsMisc, some false, langInfo_dst⟩
        else
          ⟨t2 ++ [Action.copyFile (Path.root "/tmp/langInfo.txt") langInfo_dst_path],
           Outcome.normal, toolsMisc, some true, ⟨langInfo_out.content, now⟩⟩

/-! ## `_MakeIcuDataFilesWithoutTimeZoneFiles` -/

/-- Model of `_MakeIcuDataFilesWithoutTimeZoneFiles`: unlink the stale
`icudata.lst`, reconfigure the given build directory with the
`ICU_DATA_FILTERS` payload, and rebuild with
`copy_icu4c_dat_file_only=True` (so only the `.dat` file is copied). -/
def MakeIcuDataFilesWithoutTimeZoneFiles (cwd0 icu_build_dir icu4c_dir icu4j_dir : Path)
    (configureSt makeSt : Nat) (datGlob : List Path) : OpResult :=
  let unlinkAct := Action.unlink (icu_build_dir.join "data/out/tmp/icudata.lst")
  let r1 := PrepareIcuBuild cwd0 icu_build_dir (some ICU_DATA_FILTERS) configureSt
  match r1.outcome with
  | Outcome.aborted a => ⟨unlinkAct :: r1.trace, Outcome.aborted a, r1.cwd⟩
  | Outcome.normal =>
      let r2 := MakeAndCopyIcuDataFiles r1.cwd icu_build_dir icu4c_dir icu4j_dir
        true makeSt 0 0 datGlob [] (fun _ => false)
      ⟨unlinkAct :: (r1.trace ++ r2.trace), r2.outcome, r2.cwd⟩

/-! ## Lemmas about the convergence loop -/

theorem countBuilds_append (l1 l2 : List LoopEvent) :
    countBuilds (l1 ++ l2) = countBuilds l1 + countBuilds l2 := by
  simp [countBuilds, List.countP_append]

theorem countFinal_append (l1 l2 : List LoopEvent) :
    countFinal (l1 ++ l2) = countFinal l1 + countFinal l2 := by
  simp [countFinal, List.countP_append]

theorem buildDirs_append (l1 l2 : List LoopEvent) :
    buildDirs (l1 ++ l2) = buildDirs l1 ++ buildDirs l2 := by
  simp [buildDirs]

/-- Exact description of a terminating run of the convergence loop: if the
oracle answers `true` at `k, k+1, ..., k+N-1` and `false` at `k+N`, and the
most recent full build so far is `k`, then with fuel `N+1` the loop
completes, performing `N` further full builds, no final variant build
before its last event, and ends with the final variant build in the
directory of the last full build `k+N`. -/
theorem genLoop_spec (changed : Nat → Bool) (N : Nat) :
    ∀ (k : Nat) (acc : List LoopEvent),
      (∀ j, j < N → changed (k + j) = true) → changed (k + N) = false →
      lastBuildDir acc = some k →
      ∃ t, genLoop changed (N + 1) k acc = (t ++ [LoopEvent.finalVariant (k + N)], true) ∧
        countBuilds t = countBuilds acc + N ∧
        countFinal t = countFinal acc ∧
        lastBuildDir t = some (k + N) := by
  induction N with
  | zero =>
      intro k acc _ hN hlast
      refine ⟨acc ++ [LoopEvent.langInfo false], ?_, ?_, ?_, ?_⟩
      · simp only [genLoop]
        rw [if_neg (by simp_all)]
        simp
      · rw [countBuilds_append, show countBuilds [LoopEvent.langInfo false] = 0 from rfl]
      · rw [countFinal_append, show countFinal [LoopEvent.langInfo false] = 0 from rfl]
        omega
      · simp [lastBuildDir, buildDirs_append, buildDirs] at hlast ⊢
        exact hlast
  | succ N ih =>
      intro k acc h hN hlast
      have hk : changed k = true := by simpa using h 0 (Nat.succ_pos N)
      have hstep : genLoop changed (N + 1 + 1) k acc =
          genLoop changed (N + 1) (k + 1)
            (acc ++ [LoopEvent.langInfo true, LoopEvent.fullBuild (k + 1)]) := by
        simp only [genLoop, hk, if_pos]
      have hacc : lastBuildDir (acc ++ [LoopEvent.langInfo true, LoopEvent.fullBuild (k + 1)]) =
          some (k + 1) := by
        simp [lastBuildDir, buildDirs_append, buildDirs, List.getLast?_concat]
      have h1 : ∀ j, j < N → changed (k + 1 + j) = true := by
        intro j hj
        have := h (j + 1) (by omega)
        rwa [show k + (j + 1) = k + 1 + j by omega] at this
      have h2 : changed (k + 1 + N) = false := by
        rwa [show k + (N + 1) = k + 1 + N by omega] at hN
      obtain ⟨t, heq, hb, hf, hl⟩ :=
        ih (k + 1) (acc ++ [LoopEvent.langInfo true, LoopEvent.fullBuild (k + 1)]) h1 h2 hacc
      refine ⟨t, ?_, ?_, ?_, ?_⟩
      · rw [hstep, heq, show k + 1 + N = k + (N + 1) by omega]
      · rw [hb, countBuilds_append,
          show countBuilds [LoopEvent.langInfo true, LoopEvent.fullBuild (k + 1)] = 1 from rfl]
        omega
      · rw [hf, countFinal_append,
          show countFinal [LoopEvent.langInfo true, LoopEvent.fullBuild (k + 1)] = 0 from rfl]
        omega
      · rw [hl, show k + 1 + N = k + (N + 1) by omega]

/-- C1: For every N, if `_MakeLangInfo` reports changed exactly N times and
then unchanged, `GenerateIcuDataFiles` performs exactly N+1 full builds, all
before the single final variant build, which is passed the build directory
of the last full build. -/
theorem GenerateIcuDataFiles_convergence (N : Nat) :
    ∃ t, GenerateIcuDataFiles (fun k => decide (k < N)) (N + 1) =
        (t ++ [LoopEvent.finalVariant N], true) ∧
      countBuilds t = N + 1 ∧
      countFinal t = 0 ∧
      lastBuildDir t = some N := by
  obtain ⟨t, heq, hb, hf, hl⟩ :=
    genLoop_spec (fun k => decide (k < N)) N 0 [LoopEvent.fullBuild 0]
      (by intro j hj; simpa using hj) (by simp) (by rfl)
  refine ⟨t, ?_, ?_, ?_, ?_⟩
  · simpa [GenerateIcuDataFiles] using heq
  · rw [show countBuilds [LoopEvent.fullBuild 0] = 1 from rfl] at hb
    omega
  · rw [show countFinal [LoopEvent.fullBuild 0] = 0 from rfl] at hf
    simpa using hf
  · simpa using hl

/-- With an oracle that always reports changed, the loop never completes
and never emits a final variant build, whatever the fuel. -/
theorem genLoop_allChanged (fuel : Nat) : ∀ (k : Nat) (acc : List LoopEvent),
    (genLoop (fun _ => true) fuel k acc).2 = false ∧
    countFinal (genLoop (fun _ => true) fuel k acc).1 = countFinal acc := by
  induction fuel with
  | zero => intro k acc; exact ⟨rfl, rfl⟩
  | succ fuel ih =>
      intro k acc
      have hstep : genLoop (fun _ => true) (fuel + 1) k acc =
          genLoop (fun _ => true) fuel (k + 1)
            (acc ++ [LoopEvent.langInfo true, LoopEvent.fullBuild (k + 1)]) := by
        simp only [genLoop, if_pos]
      rw [hstep]
      obtain ⟨h1, h2⟩ :=
        ih (k + 1) (acc ++ [LoopEvent.langInfo true, LoopEvent.fullBuild (k + 1)])
      refine ⟨h1, ?_⟩
      rw [h2, countFinal_append,
        show countFinal [LoopEvent.langInfo true, LoopEvent.fullBuild (k + 1)] = 0 from rfl]
      omega

/-- The loop only ever appends events: the build count never decreases. -/
theorem genLoop_countBuilds_le (changed : Nat → Bool) (fuel : Nat) :
    ∀ (k : Nat) (acc : List LoopEvent),
      countBuilds acc ≤ countBuilds (genLoop changed fuel k acc).1 := by
  induction fuel with
  | zero => intro k acc; exact Nat.le_refl _
  | succ fuel ih =>
      intro k acc
      cases hk : changed k with
      | true =>
          have hstep : genLoop changed (fuel + 1) k acc =
              genLoop changed fuel (k + 1)
                (acc ++ [LoopEvent.langInfo true, LoopEvent.fullBuild (k + 1)]) := by
            simp only [genLoop, hk, if_pos]
          rw [hstep]
          refine Nat.le_trans ?_
            (ih (k + 1) (acc ++ [LoopEvent.langInfo true, LoopEvent.fullBuild (k + 1)]))
          rw [countBuilds_append]
          omega
      | false =>
          have hstep : genLoop changed (fuel + 1) k acc =
              (acc ++ [LoopEvent.langInfo false, LoopEvent.finalVariant k], true) := by
            simp only [genLoop, hk]
            rfl
          rw [hstep, countBuilds_append]
          omega

/-- If the oracle reports changed on each of its first `m` answers starting
at `k`, any run with fuel at least `m` performs at least `m` further full
builds. -/
theorem genLoop_builds_lower (changed : Nat → Bool) (m : Nat) :
    ∀ (fuel k : Nat) (acc : List LoopEvent),
      (∀ j, k ≤ j → j < k + m → changed j = true) → m ≤ fuel →
      countBuilds acc + m ≤ countBuilds (genLoop changed fuel k acc).1 := by
  induction m with
  | zero =>
      intro fuel k acc _ _
      simpa using genLoop_countBuilds_le changed fuel k acc
  | succ m ih =>
      intro fuel k acc h hm
      obtain ⟨fuel, rfl⟩ : ∃ f, fuel = f + 1 := ⟨fuel - 1, by omega⟩
      have hk : changed k = true := h k (Nat.le_refl k) (by omega)
      have hstep : genLoop changed (fuel + 1) k acc =
          genLoop changed fuel (k + 1)
            (acc ++ [LoopEvent.langInfo true, LoopEvent.fullBuild (k + 1)]) := by
        simp only [genLoop, hk, if_pos]
      rw [hstep]
      have hrec := ih fuel (k + 1)
        (acc ++ [LoopEvent.langInfo true, LoopEvent.fullBuild (k + 1)])
        (fun j hj1 hj2 => h j (by omega) (by omega)) (by omega)
      rw [countBuilds_append,
        show countBuilds [LoopEvent.langInfo true, LoopEvent.fullBuild (k + 1)] = 1 from rfl]
        at hrec
      omega

/-- The loop completes only after an unchanged answer from the oracle. -/
theorem genLoop_done_exists (changed : Nat → Bool) (fuel : Nat) :
    ∀ (k : Nat) (acc : List LoopEvent),
      (genLoop changed fuel k acc).2 = true →
      ∃ j, k ≤ j ∧ j < k + fuel ∧ changed j = false := by
  induction fuel with
  | zero =>
      intro k acc h
      exact absurd h (by simp [genLoop])
  | succ fuel ih =>
      intro k acc h
      cases hk : changed k with
      | false => exact ⟨k, Nat.le_refl k, by omega, hk⟩
      | true =>
          have hstep : genLoop changed (fuel + 1) k acc =
              genLoop changed fuel (k + 1)
                (acc ++ [LoopEvent.langInfo true, LoopEvent.fullBuild (k + 1)]) := by
            simp only [genLoop, hk, if_pos]
          rw [hstep] at h
          obtain ⟨j, hj1, hj2, hj3⟩ := ih (k + 1) _ h
          exact ⟨j, by omega, by omega, hj3⟩

/-- C8: the convergence loop has no enforced iteration cap: whenever the
regeneration oracle reports changed on its first N answers the loop reaches
an (N+1)-th full build (given enough fuel), it completes only after an
unchanged answer, and with an oracle that never reports unchanged it never
completes and never reaches the final variant build. -/
theorem GenerateIcuDataFiles_no_iteration_cap :
    (∀ (N : Nat) (changed : Nat → Bool) (fuel : Nat),
        (∀ k, k < N → changed k = true) → N + 1 ≤ fuel →
        N + 1 ≤ countBuilds (GenerateIcuDataFiles changed fuel).1) ∧
    (∀ (changed : Nat → Bool) (fuel : Nat),
        (GenerateIcuDataFiles changed fuel).2 = true →
        ∃ k, k < fuel ∧ changed k = false) ∧
    (∀ fuel : Nat,
        (GenerateIcuDataFiles (fun _ => true) fuel).2 = false ∧
        countFinal (GenerateIcuDataFiles (fun _ => true) fuel).1 = 0) := by
  refine ⟨?_, ?_, ?_⟩
  · intro N changed fuel h hfuel
    have := genLoop_builds_lower changed N fuel 0 [LoopEvent.fullBuild 0]
      (fun j _ hj => h j (by omega)) (by omega)
    rw [show countBuilds [LoopEvent.fullBuild 0] = 1 from rfl] at this
    calc N + 1 = 1 + N := by omega
      _ ≤ _ := this
  · intro changed fuel h
    obtain ⟨j, _, hj2, hj3⟩ := genLoop_done_exists changed fuel 0 [LoopEvent.fullBuild 0] h
    exact ⟨j, by omega, hj3⟩
  · intro fuel
    obtain ⟨h1, h2⟩ := genLoop_allChanged fuel 0 [LoopEvent.fullBuild 0]
    refine ⟨h1, ?_⟩
    rw [GenerateIcuDataFiles, h2]
    rfl

/-- Witness for C8 at concrete inputs: with an oracle reporting changed on
its first two answers and fuel 5, at least three full builds happen. -/
theorem GenerateIcuDataFiles_no_iteration_cap_witness :
    2 + 1 ≤ countBuilds (GenerateIcuDataFiles (fun _ => true) 5).1 :=
  GenerateIcuDataFiles_no_iteration_cap.1 2 (fun _ => true) 5
    (fun _ _ => rfl) (by decide)

/-! ## `datFile` and the count-mismatch diagnostic (C5) -/

/-- C5 (code bug): whenever the `.dat` glob matches a number of files other
than one, `datFile` halts — but through an uncaught `NameError` for the
unbound name `datfiles`, raised while formatting the diagnostic, so the
intended count-naming diagnostic and `sys.exit(1)` are never reached. -/
theorem datFile_count_mismatch (gs : List Path) (h : gs.length ≠ 1) :
    datFile gs = Except.error (Abort.nameError "datfiles") := by
  simp [datFile, h]
  decide

/-- Witness for C5: the empty glob result (zero `.dat` files). -/
theorem datFile_count_mismatch_witness :
    datFile [] = Except.error (Abort.nameError "datfiles") :=
  datFile_count_mismatch [] (by decide)

/-! ## The overlay package name (C9) -/

/-- C9: `MakeAndCopyOverlayTzIcuData` (after a successful `make` and a
single-match glob) halts with `sys.exit(1)` when the basename of the
`.dat` file does not end with `.dat`; otherwise every `pkgdata` invocation
in its trace carries the package name obtained from that basename by
removing its final four characters (so package name ++ ".dat" is the
basename), together with the subprocess status supplied for `pkgdata`. -/
theorem MakeAndCopyOverlayTzIcuData_package_name
    (cwd0 d dest : Path) (pkgSt : Nat) (f : Path) :
    (¬ String.toList ".dat" <:+ (Path.basename f).data →
      (MakeAndCopyOverlayTzIcuData cwd0 d dest 0 pkgSt [f]).outcome =
        Outcome.aborted (Abort.sysExit 1)) ∧
    (∀ (pkg : String) (st : Nat),
      Action.invokePkgdata pkg st ∈ (MakeAndCopyOverlayTzIcuData cwd0 d dest 0 pkgSt [f]).trace →
      pkg.data ++ String.toList ".dat" = (Path.basename f).data ∧ st = pkgSt) := by
  have hdat : datFile [f] = Except.ok f := by simp [datFile, List.headI]
  cases hsufB : (String.toList ".dat").isSuffixOf (Path.basename f).data with
  | true =>
      have hsufP : ['.', 'd', 'a', 't'] <:+ (Path.basename f).data := by
        simpa using List.isSuffixOf_iff_suffix.mp hsufB
      have hok : overlayPackageName (Path.basename f).data =
          Except.ok ((Path.basename f).data.take ((Path.basename f).data.length - 4)) := by
        simp [overlayPackageName, hsufP]
      obtain ⟨t, ht⟩ := hsufP
      have htake : (Path.basename f).data.take ((Path.basename f).data.length - 4) = t := by
        rw [← ht]
        exact List.take_left' (by simp)
      constructor
      · intro hc
        exact absurd ⟨t, ht⟩ hc
      · intro pkg st hmem
        simp only [MakeAndCopyOverlayTzIcuData, hdat, hok, htake] at hmem
        simp [tz_res_names] at hmem
        refine ⟨?_, hmem.2⟩
        rw [hmem.1]
        exact ht
  | false =>
      have hsufN : ¬ ['.', 'd', 'a', 't'] <:+ (Path.basename f).data := by
        intro hcon
        have hB : (String.toList ".dat").isSuffixOf (Path.basename f).data = true :=
          List.isSuffixOf_iff_suffix.mpr (by simpa using hcon)
        rw [hsufB] at hB
        exact Bool.false_ne_true hB
      have hbad : overlayPackageName (Path.basename f).data = Except.error 1 := by
        simp [overlayPackageName, hsufN]
      constructor
      · intro _
        simp [MakeAndCopyOverlayTzIcuData, hdat, hbad]
      · intro pkg st hmem
        simp only [MakeAndCopyOverlayTzIcuData, hdat, hbad] at hmem
        simp at hmem

/-- Witness for C9: the basename `icudt75l.dat` yields package `icudt75l`. -/
theorem MakeAndCopyOverlayTzIcuData_package_name_witness :
    ("icudt75l" : String).data ++ String.toList ".dat" =
      (Path.basename (Path.root "icudt75l.dat")).data ∧ 7 = 7 :=
  (MakeAndCopyOverlayTzIcuData_package_name (Path.root "o") (Path.root "b")
    (Path.root "dest") 7 (Path.root "icudt75l.dat")).2 "icudt75l" 7 (by decide)

/-! ## `_MakeLangInfo` and the shallow file comparison (C2) -/

/-- Characterisation of `filecmp.cmp` with `shallow=True`: two regular
files compare equal iff their (size, mtime) signatures agree or their
contents agree. -/
theorem filecmp_cmp_eq_true_iff (f1 f2 : PFile) :
    filecmp_cmp f1 f2 = true ↔
      ((f1.content.length = f2.content.length ∧ f1.mtime = f2.mtime) ∨
        f1.content = f2.content) := by
  unfold filecmp_cmp
  split_ifs with h1 h2
  · simp [h1]
  · constructor
    · intro h
      exact absurd h (by simp)
    · intro h
      rcases h with h | h
      · exact absurd h h1
      · exact absurd (congrArg List.length h) h2
  · constructor
    · intro h
      exact Or.inr (of_decide_eq_true h)
    · intro h
      rcases h with h | h
      · exact absurd h h1
      · exact decide_eq_true h

/-- C2 counterexample: two files whose contents differ byte-for-byte but
whose sizes and mtimes coincide are reported unchanged by `_MakeLangInfo`
(with all tool invocations succeeding), and the committed file is left
untouched — refuting that changed is reported exactly when the contents
differ. -/
theorem MakeLangInfo_shallow_counterexample :
    (PFile.mk [0] 5).content ≠ (PFile.mk [1] 5).content ∧
    (MakeLangInfo (Path.root "o") (Path.root "c") (Path.root "j") 0 0 0
        (PFile.mk [0] 5) (PFile.mk [1] 5) 9).changed = some false ∧
    (MakeLangInfo (Path.root "o") (Path.root "c") (Path.root "j") 0 0 0
        (PFile.mk [0] 5) (PFile.mk [1] 5) 9).dstAfter = PFile.mk [0] 5 := by
  refine ⟨by decide, rfl, rfl⟩

/-- C2 amended: with successful tool invocations, `_MakeLangInfo` reports
changed exactly when the fresh and committed files differ byte-for-byte
AND their (size, mtime) stat signatures are not both equal (the shallow
`filecmp.cmp` shortcut); when it reports changed it overwrites the
committed file with the fresh content, and when it reports unchanged it
leaves the committed file untouched. -/
theorem MakeLangInfo_changed_spec (cwd0 c4 j4 : Path) (dst out : PFile) (now : Nat) :
    ((MakeLangInfo cwd0 c4 j4 0 0 0 dst out now).changed = some true ↔
      (dst.content ≠ out.content ∧
        ¬ (dst.content.length = out.content.length ∧ dst.mtime = out.mtime))) ∧
    ((MakeLangInfo cwd0 c4 j4 0 0 0 dst out now).changed = some true →
      (MakeLangInfo cwd0 c4 j4 0 0 0 dst out now).dstAfter = PFile.mk out.content now) ∧
    ((MakeLangInfo cwd0 c4 j4 0 0 0 dst out now).changed = some false →
      (MakeLangInfo cwd0 c4 j4 0 0 0 dst out now).dstAfter = dst) := by
  cases hc : filecmp_cmp dst out with
  | true =>
      have hch : (MakeLangInfo cwd0 c4 j4 0 0 0 dst out now).changed = some false := by
        simp [MakeLangInfo, hc]
      have hdst : (MakeLangInfo cwd0 c4 j4 0 0 0 dst out now).dstAfter = dst := by
        simp [MakeLangInfo, hc]
      refine ⟨?_, ?_, fun _ => hdst⟩
      · rw [hch]
        constructor
        · intro h
          exact absurd h (by simp)
        · intro h
          rcases (filecmp_cmp_eq_true_iff dst out).mp hc with hs | hcnt
          · exact absurd hs h.2
          · exact absurd hcnt h.1
      · intro h
        rw [hch] at h
        exact absurd h (by simp)
  | false =>
      have hch : (MakeLangInfo cwd0 c4 j4 0 0 0 dst out now).changed = some true := by
        simp [MakeLangInfo, hc]
      have hdst : (MakeLangInfo cwd0 c4 j4 0 0 0 dst out now).dstAfter =
          PFile.mk out.content now := by
        simp [MakeLangInfo, hc]
      have hn : ¬ ((dst.content.length = out.content.length ∧ dst.mtime = out.mtime) ∨
          dst.content = out.content) := by
        rw [← filecmp_cmp_eq_true_iff]
        simp [hc]
      refine ⟨?_, fun _ => hdst, ?_⟩
      · rw [hch]
        constructor
        · intro _
          exact ⟨fun hcnt => hn (Or.inr hcnt), fun hs => hn (Or.inl hs)⟩
        · intro _
          rfl
      · intro h
        rw [hch] at h
        exact absurd h (by simp)

/-- Witness for the amended C2: files with different contents and different
mtimes are reported changed, and the committed copy is overwritten with the
fresh content. -/
theorem MakeLangInfo_changed_spec_witness :
    (MakeLangInfo (Path.root "o") (Path.root "c") (Path.root "j") 0 0 0
        (PFile.mk [0] 5) (PFile.mk [1] 6) 9).dstAfter = PFile.mk [1] 9 :=
  (MakeLangInfo_changed_spec (Path.root "o") (Path.root "c") (Path.root "j")
    (PFile.mk [0] 5) (PFile.mk [1] 6) 9).2.1 (by decide)

/-! ## Working-directory restoration (C4) -/

/-- C4 counterexample: `_MakeLangInfo`, on a fully successful run, leaves
the process working directory in `icu4j/tools/misc` instead of restoring
the original — refuting that every operation restores the working
directory on every exit path. -/
theorem workdir_restore_counterexample :
    (MakeLangInfo (Path.root "orig") (Path.root "c") (Path.root "icu4j") 0 0 0
        (PFile.mk [] 0) (PFile.mk [] 0) 1).outcome = Outcome.normal ∧
    (MakeLangInfo (Path.root "orig") (Path.root "c") (Path.root "icu4j") 0 0 0
        (PFile.mk [] 0) (PFile.mk [] 0) 1).cwd ≠ Path.root "orig" := by
  refine ⟨rfl, by decide⟩

/-- C4 amended: `PrepareIcuBuild`, the full (non-early-return) path of
`MakeAndCopyIcuDataFiles` and a normally completing
`MakeAndCopyOverlayTzIcuData` restore the working directory on success,
but no operation restores it when a `check_call` invocation fails (the
directory stays where the last `chdir` put it), the
`copy_icu4c_dat_file_only` early return of `MakeAndCopyIcuDataFiles`
leaves the working directory in the build directory, and `_MakeLangInfo`
never restores it, ending in `icu4j/tools/misc` even on success.  The
failure conjuncts cover every `check_call` site: `runConfigureICU`, the
three `make` invocations of `MakeAndCopyIcuDataFiles`, the leading `make`
of `MakeAndCopyOverlayTzIcuData`, and both `ant` invocations and the
`java` invocation of `_MakeLangInfo` (for the latter, once the first `ant`
has run the final directory is `icu4j/tools/misc` whatever the remaining
statuses and the comparison outcome). -/
theorem workdir_restoration_amended :
    (∀ (cwd0 d : Path) (fs : Option IcuDataFilters),
        (PrepareIcuBuild cwd0 d fs 0).cwd = cwd0) ∧
    (∀ (cwd0 d : Path) (fs : Option IcuDataFilters) (st : Nat), st ≠ 0 →
        (PrepareIcuBuild cwd0 d fs st).cwd = d) ∧
    (∀ (cwd0 d c4 j4 f : Path) (jars : List Path) (zs : Path → Bool),
        jars.length = 3 →
        (MakeAndCopyIcuDataFiles cwd0 d c4 j4 false 0 0 0 [f] jars zs).cwd = cwd0) ∧
    (∀ (cwd0 d c4 j4 f : Path) (jars : List Path) (zs : Path → Bool),
        (MakeAndCopyIcuDataFiles cwd0 d c4 j4 true 0 0 0 [f] jars zs).cwd = d) ∧
    (∀ (cwd0 d c4 j4 : Path) (st : Nat) (copyOnly : Bool) (dg jars : List Path)
        (zs : Path → Bool), st ≠ 0 →
        (MakeAndCopyIcuDataFiles cwd0 d c4 j4 copyOnly st 0 0 dg jars zs).cwd = d) ∧
    (∀ (cwd0 d dest : Path) (makeSt pkgSt : Nat) (dg : List Path),
        (MakeAndCopyOverlayTzIcuData cwd0 d dest makeSt pkgSt dg).outcome = Outcome.normal →
        (MakeAndCopyOverlayTzIcuData cwd0 d dest makeSt pkgSt dg).cwd = cwd0) ∧
    (∀ (cwd0 c4 j4 : Path) (dst out : PFile) (now : Nat),
        (MakeLangInfo cwd0 c4 j4 0 0 0 dst out now).cwd = (j4.join "tools").join "misc") ∧
    (∀ (cwd0 d dest : Path) (makeSt pkgSt : Nat) (dg : List Path), makeSt ≠ 0 →
        (MakeAndCopyOverlayTzIcuData cwd0 d dest makeSt pkgSt dg).cwd = d) ∧
    (∀ (cwd0 d c4 j4 f : Path) (st : Nat) (jars : List Path) (zs : Path → Bool),
        st ≠ 0 →
        (MakeAndCopyIcuDataFiles cwd0 d c4 j4 false 0 st 0 [f] jars zs).cwd = d) ∧
    (∀ (cwd0 d c4 j4 f : Path) (st : Nat) (jars : List Path) (zs : Path → Bool),
        st ≠ 0 →
        (MakeAndCopyIcuDataFiles cwd0 d c4 j4 false 0 0 st [f] jars zs).cwd = d) ∧
    (∀ (cwd0 c4 j4 : Path) (st b c : Nat) (dst out : PFile) (now : Nat), st ≠ 0 →
        (MakeLangInfo cwd0 c4 j4 st b c dst out now).cwd = j4) ∧
    (∀ (cwd0 c4 j4 : Path) (b c : Nat) (dst out : PFile) (now : Nat),
        (MakeLangInfo cwd0 c4 j4 0 b c dst out now).cwd =
          (j4.join "tools").join "misc") := by
  refine ⟨?_, ?_, ?_, ?_, ?_, ?_, ?_, ?_, ?_, ?_, ?_, ?_⟩
  · intro cwd0 d fs
    simp [PrepareIcuBuild]
  · intro cwd0 d fs st hst
    simp [PrepareIcuBuild, hst]
  · intro cwd0 d c4 j4 f jars zs h3
    have hdat : datFile [f] = Except.ok f := by simp [datFile, List.headI]
    simp [MakeAndCopyIcuDataFiles, hdat, h3]
  · intro cwd0 d c4 j4 f jars zs
    have hdat : datFile [f] = Except.ok f := by simp [datFile, List.headI]
    simp [MakeAndCopyIcuDataFiles, hdat]
  · intro cwd0 d c4 j4 st copyOnly dg jars zs hst
    simp [MakeAndCopyIcuDataFiles, hst]
  · intro cwd0 d dest makeSt pkgSt dg h
    by_cases hm : makeSt = 0
    · subst hm
      cases hdf : datFile dg with
      | error a =>
          rw [MakeAndCopyOverlayTzIcuData] at h ⊢
          simp [hdf] at h
      | ok f =>
          cases hop : overlayPackageName (Path.basename f).data with
          | error c =>
              rw [MakeAndCopyOverlayTzIcuData] at h ⊢
              simp [hdf, hop] at h
          | ok p =>
              rw [MakeAndCopyOverlayTzIcuData]
              simp [hdf, hop]
    · rw [MakeAndCopyOverlayTzIcuData] at h ⊢
      simp [hm] at h
  · intro cwd0 c4 j4 dst out now
    cases hc : filecmp_cmp dst out with
    | true => simp [MakeLangInfo, hc]
    | false => simp [MakeLangInfo, hc]
  · intro cwd0 d dest makeSt pkgSt dg h
    simp [MakeAndCopyOverlayTzIcuData, h]
  · intro cwd0 d c4 j4 f st jars zs h
    have hdat : datFile [f] = Except.ok f := by simp [datFile, List.headI]
    simp [MakeAndCopyIcuDataFiles, hdat, h]
  · intro cwd0 d c4 j4 f st jars zs h
    have hdat : datFile [f] = Except.ok f := by simp [datFile, List.headI]
    simp [MakeAndCopyIcuDataFiles, hdat, h]
  · intro cwd0 c4 j4 st b c dst out now h
    simp [MakeLangInfo, h]
  · intro cwd0 c4 j4 b c dst out now
    by_cases hb : b = 0
    · subst hb
      by_cases hc : c = 0
      · subst hc
        cases hcmp : filecmp_cmp dst out with
        | true => simp [MakeLangInfo, hcmp]
        | false => simp [MakeLangInfo, hcmp]
      · simp [MakeLangInfo, hc]
    · simp [MakeLangInfo, hb]

/-- Witness for the amended C4: a failing configure invocation leaves the
working directory in the build directory. -/
theorem workdir_restoration_amended_witness :
    (PrepareIcuBuild (Path.root "o") (Path.root "b") none 1).cwd = Path.root "b" :=
  workdir_restoration_amended.2.1 (Path.root "o") (Path.root "b") none 1 (by decide)

/-! ## Failure handling of external tool invocations (C3) -/

/-- C3 counterexample: a failing `pkgdata` invocation (status 1) does NOT
abort `MakeAndCopyOverlayTzIcuData` — the operation finishes normally, and
the trace shows the overlay `.dat` copy happening after the failed
invocation, with only a printed diagnostic in between. -/
theorem pkgdata_failure_counterexample :
    (MakeAndCopyOverlayTzIcuData (Path.root "o") (Path.root "b") (Path.root "dest")
        0 1 [Path.root "icudt75l.dat"]).outcome = Outcome.normal ∧
    (MakeAndCopyOverlayTzIcuData (Path.root "o") (Path.root "b") (Path.root "dest")
        0 1 [Path.root "icudt75l.dat"]).trace =
      [Action.chdir (Path.root "b"),
       Action.invoke Tool.make 0,
       Action.mkdir ((Path.root "b").join "overlay_res"),
       Action.copyFile ((((((Path.root "b").join "data").join "out").join "build").join
          "icudt75l").join "metaZones.res") ((Path.root "b").join "overlay_res"),
       Action.copyFile ((((((Path.root "b").join "data").join "out").join "build").join
          "icudt75l").join "timezoneTypes.res") ((Path.root "b").join "overlay_res"),
       Action.copyFile ((((((Path.root "b").join "data").join "out").join "build").join
          "icudt75l").join "windowsZones.res") ((Path.root "b").join "overlay_res"),
       Action.copyFile ((((((Path.root "b").join "data").join "out").join "build").join
          "icudt75l").join "zoneinfo64.res") ((Path.root "b").join "overlay_res"),
       Action.writeFile (((Path.root "b").join "overlay_res").join "tzdata.lst"),
       Action.chdir ((Path.root "b").join "overlay_res"),
       Action.invokePkgdata "icudt75l" 1,
       Action.printDiag 1,
       Action.copyFile (((Path.root "b").join "overlay_res").join "icudt75l.dat")
         (Path.root "dest"),
       Action.chdir (Path.root "o")] := by
  refine ⟨rfl, by decide⟩

/-- C3 amended: every invocation made through `subprocess.check_call`
aborts its operation immediately on a non-zero status, the failed
invocation being the last action of the trace.  The conjuncts cover every
`check_call` site of the component: the leading `make` of
`MakeAndCopyOverlayTzIcuData` and of `MakeAndCopyIcuDataFiles`,
`runConfigureICU` in `PrepareIcuBuild`, both `ant` invocations and the
`java` invocation of `_MakeLangInfo`, and the `make icu4j-data` and
`make tests` invocations of `MakeAndCopyIcuDataFiles`.  By contrast
`pkgdata` is run through `Popen`/`wait`, and a non-zero status only
prints a diagnostic — the operation continues, still copying the overlay
`.dat` to its destination and completing normally. -/
theorem external_tool_failure_amended :
    (∀ (cwd0 d dest : Path) (makeSt pkgSt : Nat) (dg : List Path), makeSt ≠ 0 →
        MakeAndCopyOverlayTzIcuData cwd0 d dest makeSt pkgSt dg =
          OpResult.mk [Action.chdir d, Action.invoke Tool.make makeSt]
            (Outcome.aborted (Abort.calledProcessError Tool.make)) d) ∧
    (∀ (cwd0 d c4 j4 : Path) (copyOnly : Bool) (makeSt a b : Nat) (dg jars : List Path)
        (zs : Path → Bool), makeSt ≠ 0 →
        MakeAndCopyIcuDataFiles cwd0 d c4 j4 copyOnly makeSt a b dg jars zs =
          OpResult.mk [Action.chdir d, Action.invoke Tool.make makeSt]
            (Outcome.aborted (Abort.calledProcessError Tool.make)) d) ∧
    (∀ (cwd0 d : Path) (fs : Option IcuDataFilters) (st : Nat), st ≠ 0 →
        (PrepareIcuBuild cwd0 d fs st).outcome =
          Outcome.aborted (Abort.calledProcessError Tool.runConfigureICU) ∧
        (PrepareIcuBuild cwd0 d fs st).trace.getLast? =
          some (Action.invoke Tool.runConfigureICU st)) ∧
    (∀ (cwd0 c4 j4 : Path) (st a b : Nat) (dst out : PFile) (now : Nat), st ≠ 0 →
        MakeLangInfo cwd0 c4 j4 st a b dst out now =
          LangInfoResult.mk [Action.chdir j4, Action.invoke Tool.ant st]
            (Outcome.aborted (Abort.calledProcessError Tool.ant)) j4 none dst) ∧
    (∀ (cwd0 d dest f : Path) (p : List Char) (pkgSt : Nat), pkgSt ≠ 0 →
        overlayPackageName (Path.basename f).data = Except.ok p →
        (MakeAndCopyOverlayTzIcuData cwd0 d dest 0 pkgSt [f]).outcome = Outcome.normal ∧
        Action.printDiag pkgSt ∈
          (MakeAndCopyOverlayTzIcuData cwd0 d dest 0 pkgSt [f]).trace ∧
        Action.copyFile ((d.join "overlay_res").join (Path.basename f)) dest ∈
          (MakeAndCopyOverlayTzIcuData cwd0 d dest 0 pkgSt [f]).trace) ∧
    (∀ (cwd0 d c4 j4 f : Path) (st : Nat) (jars : List Path) (zs : Path → Bool),
        st ≠ 0 →
        MakeAndCopyIcuDataFiles cwd0 d c4 j4 false 0 st 0 [f] jars zs =
          OpResult.mk
            [Action.chdir d, Action.invoke Tool.make 0,
             Action.copyFile f (c4.join "stubdata"), Action.invoke Tool.make st]
            (Outcome.aborted (Abort.calledProcessError Tool.make)) d) ∧
    (∀ (cwd0 d c4 j4 f : Path) (st : Nat) (jars : List Path) (zs : Path → Bool),
        st ≠ 0 →
        MakeAndCopyIcuDataFiles cwd0 d c4 j4 false 0 0 st [f] jars zs =
          OpResult.mk
            [Action.chdir d, Action.invoke Tool.make 0,
             Action.copyFile f (c4.join "stubdata"), Action.invoke Tool.make 0,
             Action.invoke Tool.make st]
            (Outcome.aborted (Abort.calledProcessError Tool.make)) d) ∧
    (∀ (cwd0 c4 j4 : Path) (st : Nat) (dst out : PFile) (now : Nat), st ≠ 0 →
        MakeLangInfo cwd0 c4 j4 0 st 0 dst out now =
          LangInfoResult.mk
            [Action.chdir j4, Action.invoke Tool.ant 0,
             Action.chdir ((j4.join "tools").join "misc"), Action.invoke Tool.ant st]
            (Outcome.aborted (Abort.calledProcessError Tool.ant))
            ((j4.join "tools").join "misc") none dst) ∧
    (∀ (cwd0 c4 j4 : Path) (st : Nat) (dst out : PFile) (now : Nat), st ≠ 0 →
        MakeLangInfo cwd0 c4 j4 0 0 st dst out now =
          LangInfoResult.mk
            [Action.chdir j4, Action.invoke Tool.ant 0,
             Action.chdir ((j4.join "tools").join "misc"), Action.invoke Tool.ant 0,
             Action.invoke Tool.java st]
            (Outcome.aborted (Abort.calledProcessError Tool.java))
            ((j4.join "tools").join "misc") none dst) := by
  refine ⟨?_, ?_, ?_, ?_, ?_, ?_, ?_, ?_, ?_⟩
  · intro cwd0 d dest makeSt pkgSt dg h
    simp [MakeAndCopyOverlayTzIcuData, h]
  · intro cwd0 d c4 j4 copyOnly makeSt a b dg jars zs h
    simp [MakeAndCopyIcuDataFiles, h]
  · intro cwd0 d fs st h
    cases fs with
    | none => simp [PrepareIcuBuild, h]
    | some f => simp [PrepareIcuBuild, h]
  · intro cwd0 c4 j4 st a b dst out now h
    simp [MakeLangInfo, h]
  · intro cwd0 d dest f p pkgSt hst hop
    have hdat : datFile [f] = Except.ok f := by simp [datFile, List.headI]
    refine ⟨?_, ?_, ?_⟩
    · simp [MakeAndCopyOverlayTzIcuData, hdat, hop]
    · simp [MakeAndCopyOverlayTzIcuData, hdat, hop, hst]
    · simp [MakeAndCopyOverlayTzIcuData, hdat, hop]
  · intro cwd0 d c4 j4 f st jars zs h
    have hdat : datFile [f] = Except.ok f := by simp [datFile, List.headI]
    simp [MakeAndCopyIcuDataFiles, hdat, h]
  · intro cwd0 d c4 j4 f st jars zs h
    have hdat : datFile [f] = Except.ok f := by simp [datFile, List.headI]
    simp [MakeAndCopyIcuDataFiles, hdat, h]
  · intro cwd0 c4 j4 st dst out now h
    simp [MakeLangInfo, h]
  · intro cwd0 c4 j4 st dst out now h
    simp [MakeLangInfo, h]

/-- Witness for the amended C3: a failing `make` (status 1) ends
`MakeAndCopyOverlayTzIcuData` right at the failed invocation. -/
theorem external_tool_failure_amended_witness :
    MakeAndCopyOverlayTzIcuData (Path.root "o") (Path.root "b") (Path.root "dest") 1 0 [] =
      OpResult.mk [Action.chdir (Path.root "b"), Action.invoke Tool.make 1]
        (Outcome.aborted (Abort.calledProcessError Tool.make)) (Path.root "b") :=
  external_tool_failure_amended.1 (Path.root "o") (Path.root "b") (Path.root "dest")
    1 0 [] (by decide)

/-! ## The jar-count check (C6) and the jar copy phase (C10) -/

/-- C6 counterexample: with a packaging step yielding two `.jar` files, the
operation does halt with `sys.exit(1)` — but a file copy (the `.dat` file
into `icu4c/stubdata`) has already occurred before the halt, refuting
"halts before any file copy occurs". -/
theorem jar_count_copy_counterexample :
    (MakeAndCopyIcuDataFiles (Path.root "o") (Path.root "b") (Path.root "c4")
        (Path.root "j4") false 0 0 0 [Path.root "dat"]
        [Path.root "x.jar", Path.root "y.jar"] (fun _ => false)).outcome =
      Outcome.aborted (Abort.sysExit 1) ∧
    Action.copyFile (Path.root "dat") ((Path.root "c4").join "stubdata") ∈
      (MakeAndCopyIcuDataFiles (Path.root "o") (Path.root "b") (Path.root "c4")
        (Path.root "j4") false 0 0 0 [Path.root "dat"]
        [Path.root "x.jar", Path.root "y.jar"] (fun _ => false)).trace := by
  refine ⟨rfl, by decide⟩

/-- C6 amended: when the packaging step yields a number of `.jar` files
other than three, `MakeAndCopyIcuDataFiles` halts with `sys.exit(1)` and a
diagnostic naming the count, before any `.jar` copy and before the
test-data copy — but after the `.dat` file copy, which has already been
performed. -/
theorem jar_count_check_amended (cwd0 d c4 j4 f : Path) (jars : List Path)
    (zs : Path → Bool) (h : jars.length ≠ 3) :
    (MakeAndCopyIcuDataFiles cwd0 d c4 j4 false 0 0 0 [f] jars zs).outcome =
      Outcome.aborted (Abort.sysExit 1) ∧
    Action.printDiag jars.length ∈
      (MakeAndCopyIcuDataFiles cwd0 d c4 j4 false 0 0 0 [f] jars zs).trace ∧
    Action.copyFile f (c4.join "stubdata") ∈
      (MakeAndCopyIcuDataFiles cwd0 d c4 j4 false 0 0 0 [f] jars zs).trace ∧
    (∀ jp : Path, Action.copyFile jp (((j4.join "main").join "shared").join "data") ∉
      (MakeAndCopyIcuDataFiles cwd0 d c4 j4 false 0 0 0 [f] jars zs).trace) ∧
    (∀ jp : Path, Action.skipJarCopy jp ∉
      (MakeAndCopyIcuDataFiles cwd0 d c4 j4 false 0 0 0 [f] jars zs).trace) ∧
    (∀ s t2 : Path, Action.copyTree s t2 ∉
      (MakeAndCopyIcuDataFiles cwd0 d c4 j4 false 0 0 0 [f] jars zs).trace) := by
  have hdat : datFile [f] = Except.ok f := by simp [datFile, List.headI]
  have hres : MakeAndCopyIcuDataFiles cwd0 d c4 j4 false 0 0 0 [f] jars zs =
      OpResult.mk
        [Action.chdir d, Action.invoke Tool.make 0,
         Action.copyFile f (c4.join "stubdata"),
         Action.invoke Tool.make 0, Action.invoke Tool.make 0,
         Action.printDiag jars.length]
        (Outcome.aborted (Abort.sysExit 1)) d := by
    simp [MakeAndCopyIcuDataFiles, hdat, h]
  rw [hres]
  refine ⟨rfl, by simp, by simp, ?_, ?_, ?_⟩
  · intro jp
    simp
  · intro jp
    simp
  · intro s t2
    simp

/-- Witness for the amended C6: two jar files. -/
theorem jar_count_check_amended_witness :
    (MakeAndCopyIcuDataFiles (Path.root "o") (Path.root "b") (Path.root "c4")
        (Path.root "j4") false 0 0 0 [Path.root "dat"]
        [Path.root "x.jar", Path.root "y.jar"] (fun _ => false)).outcome =
      Outcome.aborted (Abort.sysExit 1) :=
  (jar_count_check_amended (Path.root "o") (Path.root "b") (Path.root "c4")
    (Path.root "j4") (Path.root "dat") [Path.root "x.jar", Path.root "y.jar"]
    (fun _ => false) (by decide)).1

/-- Membership in the per-jar action list: a skip action for zip-identical
jars, a copy action otherwise. -/
theorem jarAct_mem (zs : Path → Bool) (dest a : Path) (x : Action) :
    (x ∈ if zs a then [Action.skipJarCopy a] else [Action.copyFile a dest]) ↔
      ((zs a = true ∧ x = Action.skipJarCopy a) ∨
        (zs a = false ∧ x = Action.copyFile a dest)) := by
  cases h : zs a <;> simp [h]

/-- C10: in the `.jar` copy phase of a successful `MakeAndCopyIcuDataFiles`
run, a jar is copied to `icu4j/main/shared/data` iff it is among the
generated jars and its zip contents differ from the destination; it is
skipped (destination untouched) iff it is among the generated jars and its
zip contents compare equal. -/
theorem jar_copy_skip_iff (cwd0 d c4 j4 f : Path) (jars : List Path) (zs : Path → Bool)
    (h3 : jars.length = 3) (j : Path) :
    (Action.copyFile j (((j4.join "main").join "shared").join "data") ∈
        (MakeAndCopyIcuDataFiles cwd0 d c4 j4 false 0 0 0 [f] jars zs).trace ↔
      (j ∈ jars ∧ zs j = false)) ∧
    (Action.skipJarCopy j ∈
        (MakeAndCopyIcuDataFiles cwd0 d c4 j4 false 0 0 0 [f] jars zs).trace ↔
      (j ∈ jars ∧ zs j = true)) := by
  have hdat : datFile [f] = Except.ok f := by simp [datFile, List.headI]
  constructor
  · constructor
    · intro hm
      simp [MakeAndCopyIcuDataFiles, hdat, h3, List.mem_flatMap, jarAct_mem] at hm
      tauto
    · intro hm
      simp [MakeAndCopyIcuDataFiles, hdat, h3, List.mem_flatMap, jarAct_mem]
      tauto
  · constructor
    · intro hm
      simp [MakeAndCopyIcuDataFiles, hdat, h3, List.mem_flatMap, jarAct_mem] at hm
      tauto
    · intro hm
      simp [MakeAndCopyIcuDataFiles, hdat, h3, List.mem_flatMap, jarAct_mem]
      tauto

/-- Witness for C10: a jar among three generated ones with identical zip
contents is skipped. -/
theorem jar_copy_skip_iff_witness :
    Action.skipJarCopy (Path.root "a.jar") ∈
      (MakeAndCopyIcuDataFiles (Path.root "o") (Path.root "b") (Path.root "c4")
        (Path.root "j4") false 0 0 0 [Path.root "dat"]
        [Path.root "a.jar", Path.root "b.jar", Path.root "c.jar"]
        (fun _ => true)).trace :=
  ((jar_copy_skip_iff (Path.root "o") (Path.root "b") (Path.root "c4") (Path.root "j4")
    (Path.root "dat") [Path.root "a.jar", Path.root "b.jar", Path.root "c.jar"]
    (fun _ => true) (by decide) (Path.root "a.jar")).2).mpr (by decide)

/-! ## The final variant build (C7) -/

/-- Whenever the convergence loop completes, its trace ends with a final
variant build whose directory is that of the most recent full build. -/
theorem genLoop_final_dir (changed : Nat → Bool) (fuel : Nat) :
    ∀ (k : Nat) (acc : List LoopEvent), lastBuildDir acc = some k →
      (genLoop changed fuel k acc).2 = true →
      ∃ t dd, (genLoop changed fuel k acc).1 = t ++ [LoopEvent.finalVariant dd] ∧
        lastBuildDir t = some dd := by
  induction fuel with
  | zero =>
      intro k acc _ hdone
      exact absurd hdone (by simp [genLoop])
  | succ fuel ih =>
      intro k acc hlast hdone
      cases hk : changed k with
      | true =>
          have hstep : genLoop changed (fuel + 1) k acc =
              genLoop changed fuel (k + 1)
                (acc ++ [LoopEvent.langInfo true, LoopEvent.fullBuild (k + 1)]) := by
            simp only [genLoop, hk, if_pos]
          rw [hstep] at hdone ⊢
          refine ih (k + 1) _ ?_ hdone
          simp [lastBuildDir, buildDirs_append, buildDirs, List.getLast?_concat]
      | false =>
          have hstep : genLoop changed (fuel + 1) k acc =
              (acc ++ [LoopEvent.langInfo false, LoopEvent.finalVariant k], true) := by
            simp only [genLoop, hk]
            rfl
          refine ⟨acc ++ [LoopEvent.langInfo false], k, ?_, ?_⟩
          · rw [hstep]
            simp
          · simp [lastBuildDir, buildDirs_append, buildDirs] at hlast ⊢
            exact hlast

/-- C7: whenever the loop completes, the final variant build runs in the
directory of the most recent full build; and
`_MakeIcuDataFilesWithoutTimeZoneFiles` (on a successful run) reconfigures
that very build directory with the alternate `ICU_DATA_FILTERS` payload —
whose `misc` excludelist is exactly the four time-zone resources — and
copies only the `.dat` file: the single file copy in its trace is the
`.dat` into `icu4c/stubdata`, with no jar copy, no jar skip, and no
test-data tree copy. -/
theorem final_variant_build_spec :
    (∀ (changed : Nat → Bool) (fuel : Nat),
        (GenerateIcuDataFiles changed fuel).2 = true →
        ∃ t dd, (GenerateIcuDataFiles changed fuel).1 =
            t ++ [LoopEvent.finalVariant dd] ∧ lastBuildDir t = some dd) ∧
    ICU_DATA_FILTERS.misc_excludelist =
      some ["metaZones", "timezoneTypes", "windowsZones", "zoneinfo64"] ∧
    (∀ (cwd0 d c4 j4 f : Path),
        (MakeIcuDataFilesWithoutTimeZoneFiles cwd0 d c4 j4 0 0 [f]).outcome =
          Outcome.normal ∧
        Action.writeFilterFile d ICU_DATA_FILTERS ∈
          (MakeIcuDataFilesWithoutTimeZoneFiles cwd0 d c4 j4 0 0 [f]).trace ∧
        Action.copyFile f (c4.join "stubdata") ∈
          (MakeIcuDataFilesWithoutTimeZoneFiles cwd0 d c4 j4 0 0 [f]).trace ∧
        (∀ src dst : Path, Action.copyFile src dst ∈
            (MakeIcuDataFilesWithoutTimeZoneFiles cwd0 d c4 j4 0 0 [f]).trace →
          src = f ∧ dst = c4.join "stubdata") ∧
        (∀ jp : Path, Action.skipJarCopy jp ∉
          (MakeIcuDataFilesWithoutTimeZoneFiles cwd0 d c4 j4 0 0 [f]).trace) ∧
        (∀ src dst : Path, Action.copyTree src dst ∉
          (MakeIcuDataFilesWithoutTimeZoneFiles cwd0 d c4 j4 0 0 [f]).trace)) := by
  refine ⟨?_, rfl, ?_⟩
  · intro changed fuel hdone
    exact genLoop_final_dir changed fuel 0 [LoopEvent.fullBuild 0] rfl hdone
  · intro cwd0 d c4 j4 f
    have hdat : datFile [f] = Except.ok f := by simp [datFile, List.headI]
    have hres : MakeIcuDataFilesWithoutTimeZoneFiles cwd0 d c4 j4 0 0 [f] =
        OpResult.mk
          [Action.unlink (d.join "data/out/tmp/icudata.lst"),
           Action.chdir d, Action.writeFilterFile d ICU_DATA_FILTERS,
           Action.invoke Tool.runConfigureICU 0, Action.chdir cwd0,
           Action.chdir d, Action.invoke Tool.make 0,
           Action.copyFile f (c4.join "stubdata")]
          Outcome.normal d := by
      simp [MakeIcuDataFilesWithoutTimeZoneFiles, PrepareIcuBuild,
        MakeAndCopyIcuDataFiles, hdat]
    rw [hres]
    refine ⟨rfl, by simp, by simp, ?_, ?_, ?_⟩
    · intro src dst hm
      simp at hm
      exact hm
    · intro jp
      simp
    · intro src dst
      simp

/-- Witness for C7: with an oracle that is immediately unchanged and fuel
1, the loop completes and the final variant build uses the directory of
the sole full build. -/
theorem final_variant_build_spec_witness :
    ∃ t dd, (GenerateIcuDataFiles (fun _ => false) 1).1 =
        t ++ [LoopEvent.finalVariant dd] ∧ lastBuildDir t = some dd :=
  final_variant_build_spec.1 (fun _ => false) 1 (by decide)

end IcuUtil
